import Mathlib

/-!
Verification of the news-religio-cat retrieval query-planning and ranking core.

The JavaScript source (n8n Code nodes under `scripts/n8n/` plus two unnamed
node scripts) is shallowly embedded below.  Strings are modelled as `List Char`,
JS numbers as `ℤ` where the code only handles integers (timestamps, limits) and
as `ℚ`/`ℝ` where it handles general floats (scores, decay weights).
-/

set_option maxRecDepth 20000

namespace NewsSearch

/-- JS strings, modelled as lists of characters. -/
abbrev Str := List Char

/-- Convert a Lean string literal to the model type. -/
def str (s : String) : Str := s.toList

/-- JS whitespace characters recognised by `\s` / `trim` (common subset). -/
def isJsWs (c : Char) : Bool :=
  c = ' ' || c = '\t' || c = '\n' || c = '\r' || c = '\x0b' || c = '\x0c'

/-- Leading-whitespace strip, the first half of `String.prototype.trim`. -/
def ltrimWs (s : Str) : Str := s.dropWhile isJsWs

/-- Trailing-whitespace strip: `replace(/\s+$/, '')`, the second half of `trim`. -/
def rtrimWs (s : Str) : Str := (s.reverse.dropWhile isJsWs).reverse

/-- `String.prototype.trim`. -/
def jsTrim (s : Str) : Str := rtrimWs (ltrimWs s)

/-! ### Filter sanitization (`step_2_sanitize_plan` node)

Replicates `cleanList`, `sanitizeFilters` and `dropEmpty`.  A raw filter
object may lack any field (`Option`), and list entries may be `null`
(`Option Str`; non-string entries are taken after `String(v)` conversion). -/

/-- A filter object as passed between the n8n nodes.  `none` models an
absent/undefined field; list entries of `none` model `null`/`undefined`. -/
structure FilterObj where
  site : Option (List (Option Str))
  base_url : Option (List (Option Str))
  url : Option (List (Option Str))
  lang : Option (List (Option Str))
  author : Option (List (Option Str))
  article_id : Option (List (Option Str))
  date_from : Option Str
  date_to : Option Str
  deriving Repr, DecidableEq

/-- `cleanList`: drop null entries, trim, drop empty strings. -/
def cleanList (o : Option (List (Option Str))) : List Str :=
  match o with
  | none => []
  | some l => l.filterMap (fun e =>
      match e with
      | none => none
      | some s =>
        if jsTrim s = [] then none else some (jsTrim s))

/-- Re-wrap a cleaned list for the output object, dropping it when empty
(`dropEmpty` on an array field). -/
def keepList (l : List Str) : Option (List (Option Str)) :=
  if l = [] then none else some (l.map some)

/-- Trim a date string and drop it when empty (`dropEmpty` on a string field). -/
def keepStr (s : Str) : Option Str :=
  if s = [] then none else some s

/-- `dropEmpty(sanitizeFilters(raw))`: the composed sanitization applied by
`step_2_sanitize_plan`. -/
def sanitize (f : FilterObj) : FilterObj :=
  { site := keepList (cleanList f.site)
    base_url := keepList (cleanList f.base_url)
    url := keepList (cleanList f.url)
    lang := keepList (cleanList f.lang)
    author := keepList (cleanList f.author)
    article_id := keepList (cleanList f.article_id)
    date_from := keepStr (jsTrim (f.date_from.getD []))
    date_to := keepStr (jsTrim (f.date_to.getD [])) }

/-! ### Date parsing (`parseDate` in `step_4_build_filter_requests.js` and in
the response-normalization node) and the post-fetch date-range check.

`new Date('YYYY-MM-DDTHH:MM:SS.sssZ').getTime()` / `Date.parse` are modelled
on their ECMA-specified deterministic domain, ISO-8601 UTC forms; any other
string is treated as unparseable (`NaN`), which downstream behaves exactly
like a missing bound ("no constraint").  A regex-matching but calendar-invalid
date such as `2024-02-30` yields `NaN` in JS, which is falsy wherever the
parsed bound is consumed, so it is likewise modelled as `none`. -/

/-- Epoch day number of a proleptic-Gregorian calendar date (UTC): the value
`new Date('YYYY-MM-DDT00:00:00.000Z').getTime() / 86400000`. -/
def daysFromCivil (y m d : ℤ) : ℤ :=
  let y2 := if m ≤ 2 then y - 1 else y
  let era := Int.fdiv y2 400
  let yoe := y2 - era * 400
  let mp := if 2 < m then m - 3 else m + 9
  let doy := Int.fdiv (153 * mp + 2) 5 + d - 1
  let doe := yoe * 365 + Int.fdiv yoe 4 - Int.fdiv yoe 100 + doy
  era * 146097 + doe - 719468

def isDigit (c : Char) : Bool := 48 ≤ c.toNat && c.toNat ≤ 57

def digitVal (c : Char) : ℤ := (c.toNat : ℤ) - 48

/-- The regex test `^\d{4}-\d{2}-\d{2}$` together with field extraction. -/
def bareDateFields (s : Str) : Option (ℤ × ℤ × ℤ) :=
  match s with
  | [y1, y2, y3, y4, c1, m1, m2, c2, d1, d2] =>
    if isDigit y1 && isDigit y2 && isDigit y3 && isDigit y4 && c1 = '-' &&
        isDigit m1 && isDigit m2 && c2 = '-' && isDigit d1 && isDigit d2 then
      some (digitVal y1 * 1000 + digitVal y2 * 100 + digitVal y3 * 10 + digitVal y4,
            digitVal m1 * 10 + digitVal m2,
            digitVal d1 * 10 + digitVal d2)
    else none
  | _ => none

def isLeapYear (y : ℤ) : Bool :=
  (y % 4 = 0 && !(y % 100 = 0)) || y % 400 = 0

def daysInMonth (y m : ℤ) : ℤ :=
  if m = 2 then (if isLeapYear y then 29 else 28)
  else if m = 4 || m = 6 || m = 9 || m = 11 then 30
  else 31

/-- Calendar validity as enforced by ECMA-262 ISO date parsing
(out-of-bounds components make the whole string unparseable). -/
def validYMD (y m d : ℤ) : Bool :=
  1 ≤ m && m ≤ 12 && 1 ≤ d && d ≤ daysInMonth y m

def twoDigits (a b : Char) : Option ℤ :=
  if isDigit a && isDigit b then some (digitVal a * 10 + digitVal b) else none

def hmsMs (h1 h2 m1 m2 s1 s2 : Char) (frac : ℤ) : Option ℤ :=
  match twoDigits h1 h2, twoDigits m1 m2, twoDigits s1 s2 with
  | some h, some m, some s =>
    if h ≤ 23 && m ≤ 59 && s ≤ 59 then
      some (h * 3600000 + m * 60000 + s * 1000 + frac)
    else none
  | _, _, _ => none

/-- Millisecond offset within the day for the time part of an ISO-8601 UTC
date-time (`HH:MM[:SS[.sss]]Z`, after the `T`). -/
def parseTimePartMs : Str → Option ℤ
  | [h1, h2, ':', m1, m2, 'Z'] => hmsMs h1 h2 m1 m2 '0' '0' 0
  | [h1, h2, ':', m1, m2, ':', s1, s2, 'Z'] => hmsMs h1 h2 m1 m2 s1 s2 0
  | [h1, h2, ':', m1, m2, ':', s1, s2, '.', f1, f2, f3, 'Z'] =>
    if isDigit f1 && isDigit f2 && isDigit f3 then
      hmsMs h1 h2 m1 m2 s1 s2 (digitVal f1 * 100 + digitVal f2 * 10 + digitVal f3)
    else none
  | _ => none

/-- `Date.parse(s)` in milliseconds on the deterministic ISO-8601 UTC domain;
`none` models `NaN`. -/
def jsDateParseMs (s : Str) : Option ℤ :=
  match bareDateFields s with
  | some (y, m, d) =>
    if validYMD y m d then some (86400000 * daysFromCivil y m d) else none
  | none =>
    match bareDateFields (s.take 10), s.drop 10 with
    | some (y, m, d), 'T' :: rest =>
      if validYMD y m d then
        (parseTimePartMs rest).map (fun ms => 86400000 * daysFromCivil y m d + ms)
      else none
    | _, _ => none

/-- `parseDate(d, end)`: bare `YYYY-MM-DD` becomes the UTC day boundary
(`00:00:00.000Z` or `23:59:59.999Z`), other strings go through general date
parsing; the result is `Math.floor(ms / 1000)` (epoch seconds). -/
def parseDate (d : Option Str) (isEnd : Bool) : Option ℤ :=
  match d with
  | none => none
  | some s =>
    if s = [] then none
    else
      match bareDateFields s with
      | some (y, m, dd) =>
        if validYMD y m dd then
          some (Int.fdiv
            (86400000 * daysFromCivil y m dd + (if isEnd then 86399999 else 0)) 1000)
        else none
      | none => (jsDateParseMs s).map (fun t => Int.fdiv t 1000)

/-- In `inDateRange`, `if (gte && ts < gte)`: a `null`/`NaN` bound is falsy,
and so is an epoch-zero bound. -/
def boundViolatedLow (ts : ℤ) (o : Option ℤ) : Bool :=
  match o with
  | some g => if g = 0 then false else decide (ts < g)
  | none => false

def boundViolatedHigh (ts : ℤ) (o : Option ℤ) : Bool :=
  match o with
  | some l => if l = 0 then false else decide (l < ts)
  | none => false

/-- Post-fetch date-range check `inDateRange(ts, f)` from the
response-normalization node. -/
def inDateRange (ts : ℤ) (f : FilterObj) : Bool :=
  if ts = 0 then true
  else if boundViolatedLow ts (parseDate f.date_from false) then false
  else if boundViolatedHigh ts (parseDate f.date_to true) then false
  else true

/-! ### Result normalization and scoring (response-normalization node)

Floats are modelled as real numbers; `Number.isFinite` guards are vacuous in
the model (every real is finite), and `Number(x) || 0` on an absent value is
`Option.getD 0`. -/

/-- Default recency bias `RECENCY_WEIGHT = 0.35`. -/
def RECENCY_WEIGHT : ℝ := 0.35

/-- Default half-life `HALF_LIFE_HOURS = 36.0`. -/
def HALF_LIFE_HOURS : ℝ := 36

/-- `combinedScore(vectorScore, recencyW, bias)`. -/
def combinedScore (vectorScore recencyW bias : ℝ) : ℝ :=
  let vs := max vectorScore 0
  let rw := max (min recencyW 1.2) 0
  let b := max (min bias 0.9) 0
  (1 - b) * vs + b * rw

/-- `recencyWeightFromTs(ts, nowTs, halfLifeHours)`: exponential half-life
decay of the clamped age. -/
noncomputable def recencyWeightFromTs (ts nowTs : ℤ) (halfLifeHours : ℝ) : ℝ :=
  if ts = 0 then 0
  else if max (nowTs - ts) 0 ≤ 0 then 1
  else if halfLifeHours ≤ 0 then 1
  else Real.exp (-(Real.log 2) * (((max (nowTs - ts) 0 : ℤ) : ℝ) / 3600 / halfLifeHours))

/-- The payload fields the core ever reads; `none` models an absent field. -/
structure Payload where
  url : Option Str
  content : Option Str
  site : Option Str
  author : Option Str
  title : Option Str
  description : Option Str
  article_title : Option Str
  article_description : Option Str
  article_id : Option Str
  doc_id : Option Str
  published_at : Option Str
  indexed_at : Option Str
  published_at_ts : Option ℤ
  indexed_at_ts : Option ℤ
  chunk_ix : Option ℤ
  deriving Repr, DecidableEq

/-- An all-absent payload, convenient for concrete instances. -/
def emptyPayload : Payload :=
  ⟨none, none, none, none, none, none, none, none, none, none, none, none,
    none, none, none⟩

/-- `toInt(payload?.published_at_ts || payload?.indexed_at_ts || 0)`: a zero
or absent published timestamp falls back to the indexed one, then to 0. -/
def timestampFromPayload (p : Payload) : ℤ :=
  let v := p.published_at_ts.getD 0
  if v = 0 then p.indexed_at_ts.getD 0 else v

/-- A raw scored point of a backend response (`search` or `scroll` shape). -/
structure RawPoint where
  id : Str
  score : Option ℝ
  payload : Payload

/-- A normalized hit; `α` is the score field type (`ℝ` at normalization,
arbitrary for assembly over a fixed result set). -/
structure Hit (α : Type) where
  id : Str
  payload : Payload
  vector_score : α
  recency_weight : α
  combined_score : α
  timestamp : ℤ
  kind : Str
  deriving DecidableEq

/-- The per-point body of `normalizePointsFromResponse`. -/
noncomputable def normalizePoint (nowTs : ℤ) (pt : RawPoint) : Hit ℝ :=
  let payload := pt.payload
  let ts := timestampFromPayload payload
  let vectorScore := pt.score.getD 0
  let recency := recencyWeightFromTs ts nowTs HALF_LIFE_HOURS
  let combined := combinedScore vectorScore recency RECENCY_WEIGHT
  { id := pt.id
    payload := payload
    vector_score := vectorScore
    recency_weight := recency
    combined_score := combined
    timestamp := ts
    kind := if payload.chunk_ix.isSome then str "chunk" else str "article" }

/-- clamp(x, lo, hi), used to phrase the spec-side score formula. -/
def clampSpec (x lo hi : ℝ) : ℝ := min (max x lo) hi

/-- Modelled from the spec: `combined = (1 - b) × clamp(vectorScore, 0, ∞) +
b × clamp(recencyWeight, 0, 1.2)` with `b = clamp(0.35, 0, 0.9)`. -/
def combinedScoreSpec (vs rw : ℝ) : ℝ :=
  let b := clampSpec 0.35 0 0.9
  (1 - b) * max vs 0 + b * clampSpec rw 0 1.2

/-! ### Response assembly (response-normalization node)

`Array.prototype.sort` with the comparators of the source is a stable sort
consistent with the comparator; a stable sort's output is unique, so it is
modelled by `List.insertionSort` over the corresponding total preorder.
Scores of an already-normalized result set are modelled as `ℚ` so that
assembly stays executable. -/

/-- `String.prototype.toLowerCase`, character-wise. -/
def toLowerStr (s : Str) : Str := s.map Char.toLower

/-- Does `needle` occur at the start of `hay`? -/
def leadsWith : Str → Str → Bool
  | [], _ => true
  | _ :: _, [] => false
  | a :: as, b :: bs => a = b && leadsWith as bs

/-- `String.prototype.includes`: contiguous-substring test. -/
def occursIn (needle : Str) : Str → Bool
  | [] => needle.isEmpty
  | c :: rest => leadsWith needle (c :: rest) || occursIn needle rest

/-- `byCombinedThenTsDesc` as the order "a sorts no later than b":
`comparator(a, b) ≤ 0`. -/
def hitLe (a b : Hit ℚ) : Prop :=
  if a.combined_score = b.combined_score then b.timestamp ≤ a.timestamp
  else b.combined_score < a.combined_score

instance : DecidableRel hitLe := fun a b => by unfold hitLe; infer_instance

/-- `slice(0, limit)` including JS's negative-end semantics. -/
def jsSliceTo (limit : ℤ) (l : List α) : List α :=
  if 0 ≤ limit then l.take limit.toNat
  else l.take ((l.length : ℤ) + limit).toNat

/-- `pickFields(payload, desired)`: project the requested fields, then always
re-add the four date-availability fields when present. -/
def pickFields (p : Payload) (desired : List Str) : Payload :=
  { url := if str "url" ∈ desired then p.url else none
    content := if str "content" ∈ desired then p.content else none
    site := if str "site" ∈ desired then p.site else none
    author := if str "author" ∈ desired then p.author else none
    title := if str "title" ∈ desired then p.title else none
    description := if str "description" ∈ desired then p.description else none
    article_title := if str "article_title" ∈ desired then p.article_title else none
    article_description :=
      if str "article_description" ∈ desired then p.article_description else none
    article_id := if str "article_id" ∈ desired then p.article_id else none
    doc_id := if str "doc_id" ∈ desired then p.doc_id else none
    published_at := p.published_at
    indexed_at := p.indexed_at
    published_at_ts := p.published_at_ts
    indexed_at_ts := p.indexed_at_ts
    chunk_ix := if str "chunk_ix" ∈ desired then p.chunk_ix else none }

/-- One serialized hit; `scores` is dropped when all three are falsy (0),
`timestamp` when 0. -/
structure SerializedHit where
  id : Str
  scores : Option (ℚ × ℚ × ℚ)
  timestamp : Option ℤ
  payload : Payload
  deriving DecidableEq

/-- `serializeResult(hit, fields)`. -/
def serializeResult (h : Hit ℚ) (fields : List Str) : SerializedHit :=
  { id := h.id
    scores :=
      if h.vector_score = 0 ∧ h.recency_weight = 0 ∧ h.combined_score = 0 then none
      else some (h.vector_score, h.recency_weight, h.combined_score)
    timestamp := if h.timestamp = 0 then none else some h.timestamp
    payload := pickFields h.payload fields }

/-- `filterByDate(hits, f)`. -/
def filterByDate (hits : List (Hit ℚ)) (f : FilterObj) : List (Hit ℚ) :=
  hits.filter (fun h => inDateRange h.timestamp f)

/-- The projection list of `hitsChunks`. -/
def chunkFields : List Str :=
  [str "url", str "content", str "site", str "author", str "published_at"]

/-- The exact-phrase predicate: case-insensitive substring of the chunk's
content field (`String(h.payload?.content || '')`). -/
def phraseOk (queryText : Str) (h : Hit ℚ) : Bool :=
  occursIn (toLowerStr queryText) (toLowerStr (h.payload.content.getD []))

/-- `hitsChunks(limit)` over a fixed chunk result set: date filter, optional
exact-phrase filter, sort by combined score then timestamp, truncate
(`limit || DEFAULT_CHUNK_TOPK`), serialize. -/
def hitsChunks (chunkPoints : List (Hit ℚ)) (filters : FilterObj)
    (exactPhrase : Bool) (queryText : Str) (limit : ℤ) : List SerializedHit :=
  let selected := chunkPoints.filter (fun h => inDateRange h.timestamp filters)
  let selected2 :=
    if exactPhrase && !queryText.isEmpty then selected.filter (phraseOk queryText)
    else selected
  (jsSliceTo (if limit = 0 then 10 else limit) (selected2.insertionSort hitLe)).map
    (fun h => serializeResult h chunkFields)

/-! ### Snippets (`makeSnippet`) -/

/-- `String(text).split(/\s+/).join(' ')`: every maximal whitespace run
becomes a single space (including leading/trailing runs, which the split
turns into empty border tokens). -/
def collapseAux : Bool → Str → Str
  | _, [] => []
  | true, c :: rest =>
    if isJsWs c then collapseAux true rest else c :: collapseAux false rest
  | false, c :: rest =>
    if isJsWs c then ' ' :: collapseAux true rest else c :: collapseAux false rest

def splitJoinWs (s : Str) : Str := collapseAux false s

/-- `makeSnippet(text, limit)`. -/
def makeSnippet (text : Str) (limit : ℕ) : Str :=
  if text = [] then []
  else
    let one := splitJoinWs text
    if one.length ≤ limit then one
    else rtrimWs (one.take limit) ++ ['…']

/-- Modelled from the spec: truncate "to at most `limit` characters at the
last word boundary at or before the limit", strip trailing whitespace, append
an ellipsis marker. If the character right after the cut is whitespace the
cut already sits at a word boundary; otherwise the trailing partial word is
dropped. -/
def makeSnippetSpecC9 (text : Str) (limit : ℕ) : Str :=
  if text = [] then []
  else
    let one := splitJoinWs text
    if one.length ≤ limit then one
    else
      let p := one.take limit
      let cut :=
        if (one.drop limit).head? = some ' ' then p
        else (p.reverse.dropWhile (fun c => !isJsWs c)).reverse
      rtrimWs cut ++ ['…']

/-! ### Plan normalization (`prepare_plan.js`) -/

/-- A JS value in `topK` position: an integer (`Number.isInteger` true) or
anything else (float, string, undefined, ...). -/
inductive JsIntVal where
  | int (n : ℤ)
  | notInt
  deriving Repr, DecidableEq

/-- `clampInt(n, min, max, def)` from `prepare_plan.js`. -/
def clampInt (n : JsIntVal) (lo hi df : ℤ) : ℤ :=
  max lo (min hi (match n with | .int m => m | .notInt => df))

/-- `plan.topK = clampInt(plan.topK, 1, 50, 5)`. -/
def prepareTopK (n : JsIntVal) : ℤ := clampInt n 1 50 5

/-- "Positive integer", the condition named by the spec for defaulting. -/
def isPositiveInt (n : JsIntVal) : Prop :=
  match n with
  | .int m => 0 < m
  | .notInt => False

instance : DecidablePred isPositiveInt := fun n => by
  unfold isPositiveInt; cases n <;> infer_instance

/-! ### Vector-backend request building (`step_5_build_requests.js`)

Constant body fields (`with_payload`, `with_vectors`, `search_params`,
headers, URLs) carry no claim-relevant state and are elided; a request is
identified by its kind, collection, vector, filter and fetch limit. -/

inductive QCond where
  | matchAny (key : Str) (vals : List Str)
  | rangeTs (key : Str) (gte lte : Option ℤ)
  | shouldRanges (conds : List (Str × Option ℤ × Option ℤ))
  deriving DecidableEq

structure QFilter where
  must : List QCond
  deriving DecidableEq

/-- A request descriptor produced by the fan-out planner. -/
inductive Request where
  | search (collection : Str) (vector : List ℚ) (filter : Option QFilter) (limit : ℤ)
  | scroll (collection : Str) (filter : Option QFilter) (limit : ℤ)
  deriving DecidableEq

def COLLECTION_ARTICLES : Str := str "articles"

def COLLECTION_CHUNKS : Str := str "chunks"

/-- Input of step 5, as produced by the previous nodes. -/
structure Step5Input where
  intent : Str
  topK : ℤ
  per_site : ℤ
  qFilter : Option QFilter
  embedding : Option (List ℚ)
  queryText : Str
  filtersSite : Option (List Str)
  exactPhrase : Bool

/-- `k || d` on JS numbers (0 is falsy). -/
def jsOrInt (k d : ℤ) : ℤ := if k = 0 then d else k

/-- `articleFetchLimit(k)`. -/
def articleFetchLimit (k : ℤ) : ℤ := max (jsOrInt k 10) 1 * 4

/-- `chunkFetchLimit(k, forContext)`; `exactPhrase` is read from the plan in
the source's enclosing scope and is passed explicitly here. -/
def chunkFetchLimit (k : ℤ) (forContext : Bool) (exactPhrase : Bool) : ℤ :=
  if forContext then
    max (jsOrInt k 10 * 4) 20 * 6 * 4
  else
    max (jsOrInt k 10 * (if exactPhrase then 2 else 1)) 1 * 4

/-- `Array.isArray(embedding) && embedding.length && queryText`. -/
def vectorModeOk (inp : Step5Input) : Bool :=
  (match inp.embedding with | some l => !l.isEmpty | none => false)
    && !inp.queryText.isEmpty

/-- Copy the filter and push a site `match any` condition onto `must`. -/
def injectSite (qf : Option QFilter) (site : Str) : Option QFilter :=
  match qf with
  | none => none
  | some f => some ⟨f.must ++ [QCond.matchAny (str "site") [site]]⟩

/-- The full intent switch of `step_5_build_requests.js`. -/
def step5Requests (inp : Step5Input) : List Request :=
  if inp.intent = str "latest_by_site" then
    let per := jsOrInt inp.per_site 5
    let sites := (inp.filtersSite.getD []).filter (fun s => !s.isEmpty)
    if !sites.isEmpty then
      sites.map (fun site =>
        Request.scroll COLLECTION_ARTICLES (injectSite inp.qFilter site) (per * 3))
    else [Request.scroll COLLECTION_ARTICLES inp.qFilter (per * 3)]
  else if inp.intent = str "filter_only_articles" then
    [Request.scroll COLLECTION_ARTICLES inp.qFilter (max (jsOrInt inp.topK 10) 1 * 2)]
  else if inp.intent = str "filter_only_chunks" then
    [Request.scroll COLLECTION_CHUNKS inp.qFilter (max (jsOrInt inp.topK 10) 1 * 2)]
  else if inp.intent = str "search_articles" then
    if vectorModeOk inp then
      [Request.search COLLECTION_ARTICLES (inp.embedding.getD []) inp.qFilter
        (articleFetchLimit inp.topK)]
    else
      [Request.scroll COLLECTION_ARTICLES inp.qFilter (max (jsOrInt inp.topK 10) 1 * 2)]
  else if inp.intent = str "search_chunks" then
    if vectorModeOk inp then
      [Request.search COLLECTION_CHUNKS (inp.embedding.getD []) inp.qFilter
        (chunkFetchLimit inp.topK false inp.exactPhrase)]
    else
      [Request.scroll COLLECTION_CHUNKS inp.qFilter (max (jsOrInt inp.topK 10) 1 * 2)]
  else if inp.intent = str "summarize" || inp.intent = str "backgrounder" then
    let baseK := jsOrInt inp.topK 20
    if vectorModeOk inp then
      [Request.search COLLECTION_ARTICLES (inp.embedding.getD []) inp.qFilter
        (articleFetchLimit baseK),
       Request.search COLLECTION_CHUNKS (inp.embedding.getD []) inp.qFilter
        (chunkFetchLimit baseK true inp.exactPhrase)]
    else
      [Request.scroll COLLECTION_ARTICLES inp.qFilter (max baseK 10 * 2)]
  else if inp.intent = str "compare_viewpoints" then
    let sites := (inp.filtersSite.getD []).filter (fun s => !s.isEmpty)
    let baseK := jsOrInt inp.topK 10
    if vectorModeOk inp then
      (if !sites.isEmpty then
        sites.map (fun site =>
          Request.search COLLECTION_ARTICLES (inp.embedding.getD [])
            (injectSite inp.qFilter site) (articleFetchLimit baseK))
      else
        [Request.search COLLECTION_ARTICLES (inp.embedding.getD []) inp.qFilter
          (articleFetchLimit baseK)]) ++
      [Request.search COLLECTION_CHUNKS (inp.embedding.getD []) inp.qFilter
        (chunkFetchLimit baseK true inp.exactPhrase)]
    else
      [Request.scroll COLLECTION_ARTICLES inp.qFilter (max baseK 10 * 2)]
  else []

/-! ### Keyword-backend request building (`build_dsl.js`)

Only the dispatch structure and error paths are claim-relevant; a query body
is represented by its discriminating data (size, knn window, vector). -/

inductive DslError where
  | missingEmbedding (intent : Str)
  | unsupportedIntent (intent : Str)
  deriving DecidableEq

inductive DslBody where
  | aggsLatest (size : ℤ)
  | lexical (size : ℤ)
  | knn (size k numCandidates : ℤ) (vector : List ℚ)
  | matchNone
  deriving DecidableEq

structure DslOut where
  body : DslBody
  target : Str
  deriving DecidableEq

structure DslPlan where
  intent : Str
  mode : Str
  topK : ℤ
  deriving DecidableEq

/-- `build_dsl.js`: throws (`Except.error`) on a missing embedding in hybrid
mode and on an unsupported intent. -/
def buildDsl (plan : DslPlan) (embedding : Option (List ℚ)) (topK : ℤ) :
    Except DslError DslOut :=
  if plan.intent = str "latest_by_site" then
    .ok ⟨.aggsLatest (jsOrInt plan.topK 5), str "aggs"⟩
  else if plan.intent = str "search_articles" then
    if plan.mode = str "lexical" then .ok ⟨.lexical topK, str "articles_lexical"⟩
    else if (embedding.getD []).isEmpty then .error (.missingEmbedding plan.intent)
    else
      .ok ⟨.knn (max (5 * topK) 200) (max (5 * topK) 200) (max (10 * topK) 500)
        (embedding.getD []), str "articles_from_chunks"⟩
  else if plan.intent = str "search_chunks" then
    if plan.mode = str "lexical" then .ok ⟨.lexical topK, str "chunks_lexical"⟩
    else if (embedding.getD []).isEmpty then .error (.missingEmbedding plan.intent)
    else
      .ok ⟨.knn topK (max (5 * topK) 200) (max (10 * topK) 500)
        (embedding.getD []), str "chunks_knn"⟩
  else if plan.intent = str "summarize" then .ok ⟨.matchNone, str "noop"⟩
  else .error (.unsupportedIntent plan.intent)

/-! ### Concrete instances and spec-side formulas used by the claims -/

/-- A filter object constraining only the date range. -/
def dateOnlyFilter (a b : Option Str) : FilterObj :=
  ⟨none, none, none, none, none, none, a, b⟩

/-- `date_from = date_to = "2024-01-01"`. -/
def dateF2024 : FilterObj :=
  dateOnlyFilter (some (str "2024-01-01")) (some (str "2024-01-01"))

/-- Modelled from the spec: the claimed chunk-context fetch limit
`max(max(K,10)*4, 20) * 6 * 4` for `summarize`/`backgrounder`. -/
def specC3ChunkContextLimit (K : ℤ) : ℤ := max (max K 10 * 4) 20 * 6 * 4

/-- 300 `a`s, one space, 30 `b`s: collapsed length 331, with the 320-character
cut landing inside the run of `b`s. -/
def c9Text : Str := List.replicate 300 'a' ++ ' ' :: List.replicate 30 'b'

/-- A messy raw filter object: whitespace padding, null entries, empty
strings. -/
def c8Raw : FilterObj :=
  ⟨some [some (str "  a  "), none, some (str " ")], none, none, none, none,
    none, some (str " 2024-01-01 "), some (str "")⟩

/-- A concrete chunk hit whose content contains "ab" case-insensitively. -/
def c4Hit : Hit ℚ :=
  { id := str "c1"
    payload := { emptyPayload with content := some (str "Some Abc content") }
    vector_score := 1
    recency_weight := 1
    combined_score := 1
    timestamp := 5
    kind := str "chunk" }

/-- A concrete undated hit (normalized timestamp 0). -/
def c10Hit : Hit ℚ :=
  { id := str "u1"
    payload := emptyPayload
    vector_score := 1
    recency_weight := 0
    combined_score := 13 / 20
    timestamp := 0
    kind := str "article" }

/-! ### Supporting lemmas -/

theorem dropWhile_dropWhile (p : α → Bool) (l : List α) :
    (l.dropWhile p).dropWhile p = l.dropWhile p := by
  induction l with
  | nil => rfl
  | cons a t ih =>
    by_cases h : p a
    · simp [List.dropWhile_cons, h, ih]
    · simp [List.dropWhile_cons, h]

theorem ltrimWs_ltrimWs (s : Str) : ltrimWs (ltrimWs s) = ltrimWs s :=
  dropWhile_dropWhile _ _

theorem rtrimWs_rtrimWs (s : Str) : rtrimWs (rtrimWs s) = rtrimWs s := by
  unfold rtrimWs
  rw [List.reverse_reverse, dropWhile_dropWhile]

theorem rtrimWs_cons (c : Char) (t : Str) :
    rtrimWs (c :: t) = [] ∨ ∃ t', rtrimWs (c :: t) = c :: t' := by
  unfold rtrimWs
  rw [List.reverse_cons, List.dropWhile_append]
  by_cases h : (t.reverse.dropWhile isJsWs).isEmpty
  · simp only [h, if_pos]
    by_cases hc : isJsWs c
    · left; simp [List.dropWhile_cons, hc]
    · right; exact ⟨[], by simp [List.dropWhile_cons, hc]⟩
  · simp only [h, if_neg, Bool.false_eq_true, not_false_iff]
    right
    exact ⟨(t.reverse.dropWhile isJsWs).reverse, by
      rw [List.reverse_append]
      rfl⟩

theorem ltrimWs_rtrimWs_ltrimWs (s : Str) :
    ltrimWs (rtrimWs (ltrimWs s)) = rtrimWs (ltrimWs s) := by
  rcases hl : ltrimWs s with _ | ⟨c, t⟩
  · simp [rtrimWs, ltrimWs]
  · have hc : ¬ (isJsWs c = true) := by
      have := List.head?_dropWhile_not isJsWs s
      unfold ltrimWs at hl
      rw [hl] at this
      simpa using this
    rcases rtrimWs_cons c t with h | ⟨t', h⟩
    · rw [h]; rfl
    · rw [h]
      unfold ltrimWs
      simp [List.dropWhile_cons, hc]

theorem jsTrim_jsTrim (s : Str) : jsTrim (jsTrim s) = jsTrim s := by
  unfold jsTrim
  rw [ltrimWs_rtrimWs_ltrimWs, rtrimWs_rtrimWs]

theorem mem_cleanList {s : Str} {o : Option (List (Option Str))}
    (h : s ∈ cleanList o) : jsTrim s = s ∧ s ≠ [] := by
  rcases o with _ | l
  · simp [cleanList] at h
  · simp only [cleanList, List.mem_filterMap] at h
    obtain ⟨e, _, he⟩ := h
    rcases e with _ | s0
    · simp at he
    · simp only at he
      by_cases ht : jsTrim s0 = []
      · rw [if_pos ht] at he; cases he
      · rw [if_neg ht] at he
        have hs := Option.some.inj he
        subst hs
        exact ⟨jsTrim_jsTrim s0, ht⟩

theorem cleanList_keepList (l : List Str)
    (h : ∀ s ∈ l, jsTrim s = s ∧ s ≠ []) :
    cleanList (keepList l) = l := by
  unfold keepList
  by_cases hl : l = []
  · simp [hl, cleanList]
  · simp only [hl, if_neg, not_false_iff, cleanList]
    induction l with
    | nil => rfl
    | cons a t ih =>
      have ha := h a (by simp)
      simp only [List.map_cons, List.filterMap_cons, ha.1, ha.2, if_neg, not_false_iff]
      congr 1
      rcases t with _ | ⟨b, t'⟩
      · rfl
      · exact ih (fun s hs => h s (List.mem_cons_of_mem a hs)) (by simp)

theorem cleanList_sanitize_field (o : Option (List (Option Str))) :
    keepList (cleanList (keepList (cleanList o))) = keepList (cleanList o) := by
  rw [cleanList_keepList (cleanList o) (fun s hs => mem_cleanList hs)]

theorem keepStr_sanitize_field (o : Option Str) :
    keepStr (jsTrim ((keepStr (jsTrim (o.getD []))).getD [])) =
      keepStr (jsTrim (o.getD [])) := by
  by_cases h : jsTrim (o.getD []) = []
  · rw [h]; rfl
  · unfold keepStr
    simp only [h, if_neg, not_false_iff, Option.getD_some, jsTrim_jsTrim]

theorem fdiv_thousand (q r : ℤ) (h0 : 0 ≤ r) (h1 : r < 1000) :
    Int.fdiv (q * 1000 + r) 1000 = q := by
  rw [Int.fdiv_eq_ediv _ (by norm_num), add_comm,
    Int.add_mul_ediv_right _ _ (by norm_num : (1000 : ℤ) ≠ 0),
    Int.ediv_eq_zero_of_lt h0 h1, zero_add]

theorem parseDate_bare_start (s : Str) (y m d : ℤ)
    (hb : bareDateFields s = some (y, m, d)) (hv : validYMD y m d = true) :
    parseDate (some s) false = some (86400 * daysFromCivil y m d) := by
  have hne : s ≠ [] := by
    intro h; subst h; simp [bareDateFields] at hb
  simp only [parseDate, hne, if_neg, not_false_iff, hb, hv, if_pos, if_true,
    Bool.false_eq_true, if_false, add_zero]
  congr 1
  have : (86400000 : ℤ) * daysFromCivil y m d = (86400 * daysFromCivil y m d) * 1000 + 0 := by
    ring
  rw [this, fdiv_thousand _ _ (le_refl 0) (by norm_num)]

theorem parseDate_bare_end (s : Str) (y m d : ℤ)
    (hb : bareDateFields s = some (y, m, d)) (hv : validYMD y m d = true) :
    parseDate (some s) true = some (86400 * daysFromCivil y m d + 86399) := by
  have hne : s ≠ [] := by
    intro h; subst h; simp [bareDateFields] at hb
  simp only [parseDate]
  rw [if_neg hne, hb]
  simp only [hv, if_true]
  congr 1
  have : (86400000 : ℤ) * daysFromCivil y m d + 86399999 =
      (86400 * daysFromCivil y m d + 86399) * 1000 + 999 := by
    ring
  rw [this, fdiv_thousand _ _ (by norm_num) (by norm_num)]

theorem keepList_ne_some_nil (l : List Str) : keepList l ≠ some [] := by
  unfold keepList
  by_cases h : l = []
  · simp [h]
  · simp [h]

theorem keepStr_ne_some_nil (s : Str) : keepStr s ≠ some [] := by
  unfold keepStr
  by_cases h : s = []
  · simp [h]
  · simp [h]

theorem collapseAux_true_head (s : Str) :
    ∀ c, (collapseAux true s).head? = some c → isJsWs c = false := by
  induction s with
  | nil => intro c hc; simp [collapseAux] at hc
  | cons a t ih =>
    intro c hc
    by_cases ha : isJsWs a = true
    · simp only [collapseAux, ha, if_true] at hc
      exact ih c hc
    · simp only [collapseAux, ha, Bool.false_eq_true, if_false,
        List.head?_cons, Option.some.injEq] at hc
      subst hc
      simpa using ha

theorem collapseAux_chain (s : Str) :
    ∀ b, List.Chain' (fun x y => ¬(isJsWs x = true ∧ isJsWs y = true))
      (collapseAux b s) := by
  induction s with
  | nil => intro b; cases b <;> simp [collapseAux]
  | cons a t ih =>
    intro b
    by_cases ha : isJsWs a = true
    · cases b with
      | true => simpa only [collapseAux, ha, if_true] using ih true
      | false =>
        simp only [collapseAux, ha, if_true]
        rw [List.chain'_cons']
        refine ⟨?_, ih true⟩
        intro y hy hcon
        have hws := collapseAux_true_head t y (Option.mem_def.mp hy)
        rw [hcon.2] at hws
        cases hws
    · cases b <;>
        (simp only [collapseAux, ha, Bool.false_eq_true, if_false]
         rw [List.chain'_cons']
         refine ⟨fun y _ hcon => ha hcon.1, ih false⟩)

theorem collapseAux_ws_space (s : Str) :
    ∀ (b : Bool) (c : Char), c ∈ collapseAux b s → isJsWs c = true → c = ' ' := by
  induction s with
  | nil => intro b c hc; simp [collapseAux] at hc
  | cons a t ih =>
    intro b c hc hws
    by_cases ha : isJsWs a = true
    · cases b with
      | true =>
        simp only [collapseAux, ha, if_true] at hc
        exact ih true c hc hws
      | false =>
        simp only [collapseAux, ha, if_true, List.mem_cons] at hc
        rcases hc with rfl | hc
        · rfl
        · exact ih true c hc hws
    · cases b <;>
        (simp only [collapseAux, ha, Bool.false_eq_true, if_false,
          List.mem_cons] at hc
         rcases hc with rfl | hc
         · exact absurd hws ha
         · exact ih false c hc hws)

theorem combinedScore_eq_spec (vs rw : ℝ) :
    combinedScore vs rw RECENCY_WEIGHT = combinedScoreSpec vs rw := by
  unfold combinedScore combinedScoreSpec clampSpec RECENCY_WEIGHT
  have h12 : max (min rw 1.2) 0 = min (max rw 0) 1.2 := by
    rw [max_min_distrib_right]
    norm_num
  rw [h12]
  norm_num

/-! ### Claims -/

/-- C1: for every normalized hit the combined score equals
`(1 - b) * clamp(vectorScore, 0, ∞) + b * clamp(recencyWeight, 0, 1.2)` with
bias `b` clamped to `[0, 0.9]` and defaulting to 0.35, and is therefore a
deterministic function of `(vectorScore, recencyWeight)` alone. -/
theorem C1_combined_score :
    (∀ vs rw : ℝ, combinedScore vs rw RECENCY_WEIGHT = combinedScoreSpec vs rw) ∧
    (∀ (nowTs : ℤ) (pt : RawPoint),
      (normalizePoint nowTs pt).combined_score =
        combinedScoreSpec (normalizePoint nowTs pt).vector_score
          (normalizePoint nowTs pt).recency_weight) :=
  ⟨fun vs rw => combinedScore_eq_spec vs rw,
   fun _nowTs _pt => combinedScore_eq_spec _ _⟩

/-- C2: the recency weight is 0 when the timestamp is 0, 1.0 when the clamped
age `max(now - ts, 0)` is 0 (timestamp nonzero), and otherwise
`exp(-ln 2 * age_hours / 36)` with `age_hours = (now - ts) / 3600`; a point
exactly 36 hours old weighs 1/2 and one 72 hours old weighs 1/4 (exactly, in
the real-number model). -/
theorem C2_recency_weight (ts nowTs : ℤ) :
    (ts = 0 → recencyWeightFromTs ts nowTs HALF_LIFE_HOURS = 0) ∧
    (ts ≠ 0 → max (nowTs - ts) 0 = 0 →
      recencyWeightFromTs ts nowTs HALF_LIFE_HOURS = 1) ∧
    (ts ≠ 0 → 0 < nowTs - ts →
      recencyWeightFromTs ts nowTs HALF_LIFE_HOURS =
        Real.exp (-(Real.log 2) * (((nowTs - ts : ℤ) : ℝ) / 3600 / 36))) ∧
    (ts ≠ 0 → nowTs - ts = 36 * 3600 →
      recencyWeightFromTs ts nowTs HALF_LIFE_HOURS = 1 / 2) ∧
    (ts ≠ 0 → nowTs - ts = 72 * 3600 →
      recencyWeightFromTs ts nowTs HALF_LIFE_HOURS = 1 / 4) := by
  have key : ∀ _h1 : ts ≠ 0, 0 < nowTs - ts →
      recencyWeightFromTs ts nowTs HALF_LIFE_HOURS =
        Real.exp (-(Real.log 2) * (((nowTs - ts : ℤ) : ℝ) / 3600 / 36)) := by
    intro h1 h2
    unfold recencyWeightFromTs HALF_LIFE_HOURS
    rw [if_neg h1,
      if_neg (not_le.mpr (lt_of_lt_of_le h2 (le_max_left _ _))),
      if_neg (by norm_num : ¬ (36 : ℝ) ≤ 0),
      max_eq_left (le_of_lt h2)]
  refine ⟨?_, ?_, key, ?_, ?_⟩
  · intro h; unfold recencyWeightFromTs; rw [if_pos h]
  · intro h1 h2
    unfold recencyWeightFromTs
    rw [if_neg h1, if_pos (le_of_eq h2)]
  · intro h1 h2
    rw [key h1 (by omega), h2]
    have h1h : ((36 * 3600 : ℤ) : ℝ) / 3600 / 36 = 1 := by norm_num
    rw [h1h, mul_one, Real.exp_neg, Real.exp_log (by norm_num : (0 : ℝ) < 2)]
    norm_num
  · intro h1 h2
    rw [key h1 (by omega), h2]
    have h2h : ((72 * 3600 : ℤ) : ℝ) / 3600 / 36 = 2 := by norm_num
    rw [h2h]
    have hsplit : -(Real.log 2) * 2 = -(Real.log 2 + Real.log 2) := by ring
    rw [hsplit, Real.exp_neg, Real.exp_add,
      Real.exp_log (by norm_num : (0 : ℝ) < 2)]
    norm_num

/-- C2 witness: a concrete point exactly 36 hours old weighs 1/2. -/
theorem C2_recency_weight_witness :
    recencyWeightFromTs 1 (1 + 36 * 3600) HALF_LIFE_HOURS = 1 / 2 :=
  (C2_recency_weight 1 (1 + 36 * 3600)).2.2.2.1 (by decide) (by decide)

/-- C7 counterexample: the supplied topK `-3` is an integer but not a
positive one, yet normalization yields 1 (the clamp), not the default 5. -/
theorem C7_counterexample :
    ¬ isPositiveInt (JsIntVal.int (-3)) ∧ prepareTopK (JsIntVal.int (-3)) = 1 ∧
      prepareTopK (JsIntVal.int (-3)) ≠ 5 := by decide

/-- C7 amended: topK defaults to 5 exactly when the supplied value is not an
integer; integer values are clamped into [1, 50] (non-positive integers
become 1, not 5); the normalized topK always lies in [1, 50]. -/
theorem C7_topK_normalization (n : JsIntVal) :
    (n = JsIntVal.notInt → prepareTopK n = 5) ∧
    (∀ m : ℤ, n = JsIntVal.int m → m ≤ 0 → prepareTopK n = 1) ∧
    1 ≤ prepareTopK n ∧ prepareTopK n ≤ 50 := by
  refine ⟨?_, ?_, ?_, ?_⟩
  · rintro rfl; decide
  · rintro m rfl hm
    simp only [prepareTopK, clampInt]
    omega
  · rcases n with m | _ <;> simp only [prepareTopK, clampInt] <;> omega
  · rcases n with m | _ <;> simp only [prepareTopK, clampInt] <;> omega

/-- C7 witness: concrete inputs for each part of the amended claim. -/
theorem C7_topK_normalization_witness :
    prepareTopK JsIntVal.notInt = 5 ∧ prepareTopK (JsIntVal.int 0) = 1 ∧
      1 ≤ prepareTopK (JsIntVal.int 99) ∧ prepareTopK (JsIntVal.int 99) ≤ 50 :=
  ⟨(C7_topK_normalization JsIntVal.notInt).1 rfl,
   (C7_topK_normalization (JsIntVal.int 0)).2.1 0 rfl (by decide),
   (C7_topK_normalization (JsIntVal.int 99)).2.2.1,
   (C7_topK_normalization (JsIntVal.int 99)).2.2.2⟩

/-- C10: a hit with normalized timestamp 0 passes the post-fetch date-range
check for every sanitized filter set, including one with both `date_from` and
`date_to` present; hence undated hits are never excluded by date filtering. -/
theorem C10_undated_hits_pass (f : FilterObj) :
    inDateRange 0 f = true ∧
    (∀ (hits : List (Hit ℚ)) (h : Hit ℚ), h ∈ hits → h.timestamp = 0 →
      h ∈ filterByDate hits f) := by
  have h0 : inDateRange 0 f = true := by unfold inDateRange; rw [if_pos rfl]
  refine ⟨h0, ?_⟩
  intro hits h hmem hts
  unfold filterByDate
  rw [List.mem_filter]
  exact ⟨hmem, by rw [hts]; exact h0⟩

/-- C10 witness: an undated hit survives date filtering under a filter with
both bounds present. -/
theorem C10_undated_hits_pass_witness :
    inDateRange 0 dateF2024 = true ∧ c10Hit ∈ filterByDate [c10Hit] dateF2024 :=
  ⟨(C10_undated_hits_pass dateF2024).1,
   (C10_undated_hits_pass dateF2024).2 [c10Hit] c10Hit (by simp) rfl⟩

/-- C5: a bare `YYYY-MM-DD` date string parses as the epoch seconds (floor of
milliseconds/1000) of the UTC day boundary: `00:00:00.000Z` as a lower bound,
`23:59:59.999Z` as an upper bound; other strings go through general date
parsing whose failure yields no constraint (never an error); with
`date_from = date_to = "2024-01-01"`, a point at `2024-01-01T12:00:00Z` passes
the range check and one at `2024-01-02T00:00:01Z` does not. -/
theorem C5_date_parsing :
    (∀ (s : Str) (y m d : ℤ), bareDateFields s = some (y, m, d) →
      validYMD y m d = true →
      parseDate (some s) false = some (86400 * daysFromCivil y m d) ∧
      parseDate (some s) true = some (86400 * daysFromCivil y m d + 86399)) ∧
    (∀ (s : Str) (e : Bool), bareDateFields s = none → jsDateParseMs s = none →
      parseDate (some s) e = none) ∧
    (∀ (s : Str) (e : Bool) (t : ℤ), bareDateFields s = none →
      jsDateParseMs s = some t → parseDate (some s) e = some (Int.fdiv t 1000)) ∧
    (∀ ts : ℤ, inDateRange ts
      (dateOnlyFilter (some (str "not a date")) (some (str "not a date"))) = true) ∧
    (inDateRange 1704110400 dateF2024 = true ∧
      inDateRange 1704153601 dateF2024 = false) := by
  refine ⟨?_, ?_, ?_, ?_, by decide⟩
  · intro s y m d hb hv
    exact ⟨parseDate_bare_start s y m d hb hv, parseDate_bare_end s y m d hb hv⟩
  · intro s e hb hp
    by_cases hs : s = []
    · simp [parseDate, hs]
    · simp [parseDate, hs, hb, hp]
  · intro s e t hb hp
    have hs : s ≠ [] := by
      intro h; subst h
      simp [jsDateParseMs, bareDateFields] at hp
    simp [parseDate, hs, hb, hp]
  · intro ts
    by_cases h : ts = 0
    · unfold inDateRange; rw [if_pos h]
    · have hf : parseDate (some (str "not a date")) false = none := by decide
      have ht : parseDate (some (str "not a date")) true = none := by decide
      unfold inDateRange dateOnlyFilter
      rw [if_neg h]
      dsimp only
      rw [hf, ht]
      rfl

/-- C5 witness: concrete bare, unparseable, and date-time strings. -/
theorem C5_date_parsing_witness :
    parseDate (some (str "2024-01-01")) false =
      some (86400 * daysFromCivil 2024 1 1) ∧
    parseDate (some (str "2024-01-01")) true =
      some (86400 * daysFromCivil 2024 1 1 + 86399) ∧
    parseDate (some (str "definitely not a date")) false = none ∧
    parseDate (some (str "2024-01-01T12:00:00Z")) true =
      some (Int.fdiv 1704110400000 1000) :=
  ⟨(C5_date_parsing.1 (str "2024-01-01") 2024 1 1 (by decide) (by decide)).1,
   (C5_date_parsing.1 (str "2024-01-01") 2024 1 1 (by decide) (by decide)).2,
   C5_date_parsing.2.1 (str "definitely not a date") false (by decide) (by decide),
   C5_date_parsing.2.2.1 (str "2024-01-01T12:00:00Z") true 1704110400000
     (by decide) (by decide)⟩

/-- C8: filter sanitization (list cleaning followed by empty-field dropping)
is idempotent, and its output never contains an empty array or empty string
field. -/
theorem C8_sanitize_idempotent (f : FilterObj) :
    sanitize (sanitize f) = sanitize f ∧
    (sanitize f).site ≠ some [] ∧ (sanitize f).base_url ≠ some [] ∧
    (sanitize f).url ≠ some [] ∧ (sanitize f).lang ≠ some [] ∧
    (sanitize f).author ≠ some [] ∧ (sanitize f).article_id ≠ some [] ∧
    (sanitize f).date_from ≠ some [] ∧ (sanitize f).date_to ≠ some [] := by
  refine ⟨?_, keepList_ne_some_nil _, keepList_ne_some_nil _,
    keepList_ne_some_nil _, keepList_ne_some_nil _, keepList_ne_some_nil _,
    keepList_ne_some_nil _, keepStr_ne_some_nil _, keepStr_ne_some_nil _⟩
  unfold sanitize
  dsimp only
  rw [cleanList_sanitize_field, cleanList_sanitize_field,
    cleanList_sanitize_field, cleanList_sanitize_field,
    cleanList_sanitize_field, cleanList_sanitize_field,
    keepStr_sanitize_field, keepStr_sanitize_field]

/-- C8 witness: a messy concrete filter object. -/
theorem C8_sanitize_idempotent_witness :
    sanitize (sanitize c8Raw) = sanitize c8Raw ∧ (sanitize c8Raw).site ≠ some [] :=
  ⟨(C8_sanitize_idempotent c8Raw).1, (C8_sanitize_idempotent c8Raw).2.1⟩

/-- C9 counterexample: on 300 `a`s, a space and 30 `b`s the snippet keeps the
19 `b`s that fit before the 320-character cut (slicing mid-word), while the
claimed "truncate at the last word boundary at or before the limit" would
drop them. -/
theorem C9_counterexample : makeSnippet c9Text 320 ≠ makeSnippetSpecC9 c9Text 320 := by
  decide

/-- C9 amended: the snippet collapses every whitespace run to a single space;
when the collapsed text exceeds 320 characters the snippet is exactly its
first 320 characters — the cut may fall mid-word — with trailing whitespace
stripped and an ellipsis appended; collapsed text of at most 320 characters
is returned whole without a marker. -/
theorem C9_snippet (text : Str) :
    List.Chain' (fun x y => ¬(isJsWs x = true ∧ isJsWs y = true))
      (splitJoinWs text) ∧
    (∀ c ∈ splitJoinWs text, isJsWs c = true → c = ' ') ∧
    (text ≠ [] → (splitJoinWs text).length ≤ 320 →
      makeSnippet text 320 = splitJoinWs text) ∧
    (text ≠ [] → 320 < (splitJoinWs text).length →
      makeSnippet text 320 = rtrimWs ((splitJoinWs text).take 320) ++ ['…']) ∧
    makeSnippet [] 320 = [] := by
  refine ⟨collapseAux_chain text false,
    fun c hc => collapseAux_ws_space text false c hc, ?_, ?_, rfl⟩
  · intro h1 h2
    simp only [makeSnippet, splitJoinWs] at h2 ⊢
    rw [if_neg h1, if_pos h2]
  · intro h1 h2
    simp only [makeSnippet, splitJoinWs] at h2 ⊢
    rw [if_neg h1, if_neg (not_le.mpr h2)]

/-- C9 witness: a short text is returned whole; the long concrete text is cut
at exactly 320 characters. -/
theorem C9_snippet_witness :
    makeSnippet (str "a  b") 320 = splitJoinWs (str "a  b") ∧
    makeSnippet c9Text 320 = rtrimWs ((splitJoinWs c9Text).take 320) ++ ['…'] :=
  ⟨(C9_snippet (str "a  b")).2.2.1 (by decide) (by decide),
   (C9_snippet c9Text).2.2.2.1 (by decide) (by decide)⟩

/-- C3 counterexample: at topK = 5 (with embedding and query text) the
summarize fan-out's chunk-context request carries limit
`max(5*4, 20) * 6 * 4 = 480`, while the claimed formula
`max(max(K,10)*4, 20) * 6 * 4` yields 960. -/
theorem C3_counterexample :
    step5Requests ⟨str "summarize", 5, 0, none, some [(1 : ℚ)], str "papa",
        none, false⟩ =
      [Request.search COLLECTION_ARTICLES [(1 : ℚ)] none 20,
       Request.search COLLECTION_CHUNKS [(1 : ℚ)] none 480] ∧
    specC3ChunkContextLimit 5 = 960 ∧ (480 : ℤ) ≠ 960 := by decide

/-- C3 amended: for a positive requested topK `K` with non-empty embedding
and query text, the `search_chunks` vector fetch limit is
`max(K,1) * (2 if exact-phrase else 1) * 4`, and `summarize`/`backgrounder`
emit exactly two requests whose chunk-context request has limit
`max(K*4, 20) * 6 * 4` (the articles request has limit `max(K,1)*4`). -/
theorem C3_fanout_limits (topK perSite : ℤ) (qF : Option QFilter) (emb : List ℚ)
    (qt : Str) (fs : Option (List Str)) (ex : Bool)
    (hK : 1 ≤ topK) (hemb : emb ≠ []) (hqt : qt ≠ []) :
    step5Requests ⟨str "search_chunks", topK, perSite, qF, some emb, qt, fs, ex⟩ =
      [Request.search COLLECTION_CHUNKS emb qF
        (max topK 1 * (if ex then 2 else 1) * 4)] ∧
    (∀ intent ∈ [str "summarize", str "backgrounder"],
      step5Requests ⟨intent, topK, perSite, qF, some emb, qt, fs, ex⟩ =
        [Request.search COLLECTION_ARTICLES emb qF (max topK 1 * 4),
         Request.search COLLECTION_CHUNKS emb qF (max (topK * 4) 20 * 6 * 4)] ∧
      (step5Requests ⟨intent, topK, perSite, qF, some emb, qt, fs, ex⟩).length = 2) := by
  have hK0 : topK ≠ 0 := by omega
  have hni : emb.isEmpty = false := by
    cases emb with
    | nil => exact absurd rfl hemb
    | cons a t => rfl
  have hqi : qt.isEmpty = false := by
    cases qt with
    | nil => exact absurd rfl hqt
    | cons a t => rfl
  have hM : max topK 1 = topK := max_eq_left hK
  have halimit : articleFetchLimit topK = max topK 1 * 4 := by
    unfold articleFetchLimit jsOrInt
    rw [if_neg hK0]
  have hclimit : chunkFetchLimit topK false ex =
      max topK 1 * (if ex then 2 else 1) * 4 := by
    rcases ex with _ | _
    · simp only [chunkFetchLimit, jsOrInt, Bool.false_eq_true, if_false,
        if_true, if_neg hK0, mul_one]
    · simp only [chunkFetchLimit, jsOrInt, Bool.false_eq_true, if_false,
        if_true, if_neg hK0]
      rw [hM, max_eq_left (by omega : (1 : ℤ) ≤ topK * 2)]
  have hctx : chunkFetchLimit topK true ex = max (topK * 4) 20 * 6 * 4 := by
    simp only [chunkFetchLimit, jsOrInt, if_true, if_neg hK0]
  constructor
  · have h : step5Requests ⟨str "search_chunks", topK, perSite, qF, some emb,
        qt, fs, ex⟩ =
        [Request.search COLLECTION_CHUNKS emb qF (chunkFetchLimit topK false ex)] := by
      simp +decide [step5Requests, vectorModeOk, hni, hqi]
    rw [h, hclimit]
  · intro intent hin
    have hsum : step5Requests ⟨intent, topK, perSite, qF, some emb, qt, fs, ex⟩ =
        [Request.search COLLECTION_ARTICLES emb qF
          (articleFetchLimit (jsOrInt topK 20)),
         Request.search COLLECTION_CHUNKS emb qF
          (chunkFetchLimit (jsOrInt topK 20) true ex)] := by
      rcases List.mem_cons.mp hin with rfl | hin2
      · simp +decide [step5Requests, vectorModeOk, hni, hqi]
      · rcases List.mem_cons.mp hin2 with rfl | hin3
        · simp +decide [step5Requests, vectorModeOk, hni, hqi]
        · cases hin3
    have hj : jsOrInt topK 20 = topK := if_neg hK0
    rw [hsum, hj, halimit, hctx, hM]
    exact ⟨rfl, rfl⟩

/-- C3 witness: topK = 10 yields fetch limit 40 without exact phrase and 80
with it; summarize at topK = 10 emits the two requests with limits 40 and 960. -/
theorem C3_fanout_limits_witness :
    step5Requests ⟨str "search_chunks", 10, 0, none, some [(1 : ℚ)], str "x",
        none, false⟩ =
      [Request.search COLLECTION_CHUNKS [(1 : ℚ)] none 40] ∧
    step5Requests ⟨str "search_chunks", 10, 0, none, some [(1 : ℚ)], str "x",
        none, true⟩ =
      [Request.search COLLECTION_CHUNKS [(1 : ℚ)] none 80] ∧
    step5Requests ⟨str "summarize", 10, 0, none, some [(1 : ℚ)], str "x",
        none, false⟩ =
      [Request.search COLLECTION_ARTICLES [(1 : ℚ)] none 40,
       Request.search COLLECTION_CHUNKS [(1 : ℚ)] none 960] := by
  refine ⟨?_, ?_, ?_⟩
  · have h := (C3_fanout_limits 10 0 none [(1 : ℚ)] (str "x") none false
      (by decide) (by decide) (by decide)).1
    rw [h]; decide
  · have h := (C3_fanout_limits 10 0 none [(1 : ℚ)] (str "x") none true
      (by decide) (by decide) (by decide)).1
    rw [h]; decide
  · have h := ((C3_fanout_limits 10 0 none [(1 : ℚ)] (str "x") none false
      (by decide) (by decide) (by decide)).2 (str "summarize") (by decide)).1
    rw [h]; decide

/-- C6 counterexample: in `step_5_build_requests.js`, `search_chunks` with
non-empty query text but a missing embedding silently builds a scroll
request — there is no error path — contradicting "fails loudly with a
MissingEmbedding error ... in both backend request builders". -/
theorem C6_counterexample :
    step5Requests ⟨str "search_chunks", 10, 0, none, none, str "papa", none,
        false⟩ =
      [Request.scroll COLLECTION_CHUNKS none 20] := by decide

/-- C6 amended: the keyword-DSL builder (`build_dsl.js`) fails loudly with a
MissingEmbedding error in hybrid mode for both search intents when the
embedding is missing or empty; the vector request builder
(`step_5_build_requests.js`) has no mode input and instead deliberately falls
back to a scroll request. -/
theorem C6_missing_embedding (mode : Str) (planK tk : ℤ) (emb : Option (List ℚ))
    (hmode : mode ≠ str "lexical") (hemb : emb.getD [] = [])
    (topK perSite : ℤ) (qF : Option QFilter) (qt : Str) (fs : Option (List Str))
    (ex : Bool) (_hqt : qt ≠ []) :
    buildDsl ⟨str "search_articles", mode, planK⟩ emb tk =
      .error (.missingEmbedding (str "search_articles")) ∧
    buildDsl ⟨str "search_chunks", mode, planK⟩ emb tk =
      .error (.missingEmbedding (str "search_chunks")) ∧
    step5Requests ⟨str "search_articles", topK, perSite, qF, none, qt, fs, ex⟩ =
      [Request.scroll COLLECTION_ARTICLES qF (max (jsOrInt topK 10) 1 * 2)] ∧
    step5Requests ⟨str "search_chunks", topK, perSite, qF, none, qt, fs, ex⟩ =
      [Request.scroll COLLECTION_CHUNKS qF (max (jsOrInt topK 10) 1 * 2)] := by
  have hie : (emb.getD []).isEmpty = true := by rw [hemb]; rfl
  refine ⟨?_, ?_, ?_, ?_⟩
  · simp +decide [buildDsl, if_neg hmode, hie]
  · simp +decide [buildDsl, if_neg hmode, hie]
  · simp +decide [step5Requests, vectorModeOk]
  · simp +decide [step5Requests, vectorModeOk]

/-- C6 witness: hybrid mode with no embedding at concrete inputs. -/
theorem C6_missing_embedding_witness :
    buildDsl ⟨str "search_articles", str "hybrid", 5⟩ none 5 =
      .error (.missingEmbedding (str "search_articles")) ∧
    buildDsl ⟨str "search_chunks", str "hybrid", 5⟩ none 5 =
      .error (.missingEmbedding (str "search_chunks")) ∧
    step5Requests ⟨str "search_articles", 10, 0, none, none, str "x", none,
        false⟩ =
      [Request.scroll COLLECTION_ARTICLES none (max (jsOrInt 10 10) 1 * 2)] ∧
    step5Requests ⟨str "search_chunks", 10, 0, none, none, str "x", none,
        false⟩ =
      [Request.scroll COLLECTION_CHUNKS none (max (jsOrInt 10 10) 1 * 2)] :=
  C6_missing_embedding (str "hybrid") 5 5 none (by decide) rfl 10 0 none
    (str "x") none false (by decide)

theorem occursIn_nil_needle : ∀ hay : Str, occursIn [] hay = true
  | [] => rfl
  | _ :: _ => by simp [occursIn, leadsWith]

theorem jsSliceTo_length_le (limit : ℤ) (l1 l2 : List (Hit ℚ))
    (h : l1.length ≤ l2.length) :
    (jsSliceTo limit l1).length ≤ (jsSliceTo limit l2).length := by
  unfold jsSliceTo
  by_cases h0 : 0 ≤ limit
  · rw [if_pos h0, if_pos h0, List.length_take, List.length_take]
    omega
  · rw [if_neg h0, if_neg h0, List.length_take, List.length_take]
    omega

theorem mem_jsSliceTo {α : Type} {a : α} {limit : ℤ} {l : List α}
    (h : a ∈ jsSliceTo limit l) : a ∈ l := by
  unfold jsSliceTo at h
  by_cases h0 : 0 ≤ limit
  · rw [if_pos h0] at h; exact List.take_subset _ _ h
  · rw [if_neg h0] at h; exact List.take_subset _ _ h

theorem serialize_chunk_content (h : Hit ℚ) :
    (serializeResult h chunkFields).payload.content = h.payload.content := by
  simp +decide [serializeResult, pickFields, chunkFields]

/-- C4: over a fixed chunk result set, enabling exactPhrase returns no more
hits than disabling it; every hit returned with exactPhrase carries the query
text as a case-insensitive substring of its content payload field; and the
substring filter sits after the date-range filter and before sorting and
truncation to the limit. -/
theorem C4_exact_phrase (chunkPoints : List (Hit ℚ)) (filters : FilterObj)
    (queryText : Str) (limit : ℤ) :
    (hitsChunks chunkPoints filters true queryText limit).length ≤
      (hitsChunks chunkPoints filters false queryText limit).length ∧
    (∀ sh ∈ hitsChunks chunkPoints filters true queryText limit,
      occursIn (toLowerStr queryText)
        (toLowerStr (sh.payload.content.getD [])) = true) ∧
    (queryText ≠ [] →
      hitsChunks chunkPoints filters true queryText limit =
        (jsSliceTo (if limit = 0 then 10 else limit)
          (((filterByDate chunkPoints filters).filter
            (phraseOk queryText)).insertionSort hitLe)).map
          (fun h => serializeResult h chunkFields)) := by
  by_cases hq : queryText = []
  · subst hq
    refine ⟨le_refl _, ?_, fun hne => absurd rfl hne⟩
    intro sh _hsh
    exact occursIn_nil_needle _
  · have hqi : queryText.isEmpty = false := by
      cases queryText with
      | nil => exact absurd rfl hq
      | cons a t => rfl
    have htrue : hitsChunks chunkPoints filters true queryText limit =
        (jsSliceTo (if limit = 0 then 10 else limit)
          (((filterByDate chunkPoints filters).filter
            (phraseOk queryText)).insertionSort hitLe)).map
          (fun h => serializeResult h chunkFields) := by
      simp [hitsChunks, filterByDate, hqi]
    have hfalse : hitsChunks chunkPoints filters false queryText limit =
        (jsSliceTo (if limit = 0 then 10 else limit)
          ((filterByDate chunkPoints filters).insertionSort hitLe)).map
          (fun h => serializeResult h chunkFields) := by
      simp [hitsChunks, filterByDate]
    refine ⟨?_, ?_, fun _ => htrue⟩
    · rw [htrue, hfalse, List.length_map, List.length_map]
      apply jsSliceTo_length_le
      rw [List.length_insertionSort, List.length_insertionSort]
      exact List.length_filter_le _ _
    · intro sh hsh
      rw [htrue] at hsh
      obtain ⟨h, hmem, rfl⟩ := List.mem_map.mp hsh
      have h1 := mem_jsSliceTo hmem
      have h2 := (List.mem_insertionSort hitLe).mp h1
      have h3 := List.mem_filter.mp h2
      rw [serialize_chunk_content]
      exact h3.2

/-- C4 witness: a concrete chunk whose content contains "ab"
case-insensitively survives the exact-phrase pipeline. -/
theorem C4_exact_phrase_witness :
    occursIn (toLowerStr (str "ab"))
      (toLowerStr ((serializeResult c4Hit chunkFields).payload.content.getD []))
      = true ∧
    hitsChunks [c4Hit] (dateOnlyFilter none none) true (str "ab") 5 =
      (jsSliceTo (if (5 : ℤ) = 0 then 10 else 5)
        (((filterByDate [c4Hit] (dateOnlyFilter none none)).filter
          (phraseOk (str "ab"))).insertionSort hitLe)).map
        (fun h => serializeResult h chunkFields) :=
  ⟨(C4_exact_phrase [c4Hit] (dateOnlyFilter none none) (str "ab") 5).2.1
      (serializeResult c4Hit chunkFields) (by decide),
   (C4_exact_phrase [c4Hit] (dateOnlyFilter none none) (str "ab") 5).2.2
      (by decide)⟩

end NewsSearch
